import Mathlib

/-!
Verification of the `DVCLiveLogger` adapter (`src/dvclive/lightning.py`):
a shallow embedding of the adapter's step-advancement decider, metric
logging, hyperparameter sanitization, checkpoint handling and finalization,
together with theorems settling the specified properties.

The `Live` tracking-session object (`dvclive/live.py`) and
`standardize_metric_name` (`dvclive/utils.py`) belong to this repository but
are not part of the provided sources; they are modelled from the spec where
indicated.  Metric values are modelled as rationals (the adapter only carries
scalar values through; no floating-point arithmetic is performed on them).
-/

set_option autoImplicit false

namespace DvcliveLightning

/-- The module name `__name__` of the adapter, passed to
`standardize_metric_name`. -/
def MODULE_NAME : String := "dvclive.lightning"

/-- The three allow-listed finalizer frame names checked by
`_should_call_next_step`. -/
def nextStepFrames : List String :=
  ["update_train_step_metrics", "update_train_epoch_metrics", "log_eval_end_metrics"]

/-- Embedding of `_should_call_next_step` (lightning.py lines 19-34): the call
stack is passed explicitly as the ordered list of active frame function names;
the Python code reads it via `inspect.stack()`.  Returns `true` iff any frame
function name is one of the three allow-listed finalizer names. -/
def _should_call_next_step (stack : List String) : Bool :=
  stack.any fun frame => nextStepFrames.contains frame

/-- Separator replacement on one character: the framework separator `.`
becomes the tracking client's canonical path separator `/`. -/
def sepChar (c : Char) : Char := if c = '.' then '/' else c

/-- Modelled from the spec: `standardize_metric_name` lives in
`dvclive/utils.py`, which is not among the provided sources.  Per the spec
(§3 MetricRecord, §4.2), the name is normalized by stripping the redundant
adapter-module-identifying prefix when present and then replacing the
framework separator `.` with the tracking client's canonical path separator
`/`. -/
def standardize_metric_name (name framework : String) : String :=
  let pre : List Char := (framework ++ ".").toList
  let chars : List Char := name.toList
  let stripped : List Char :=
    if chars.take pre.length = pre then chars.drop pre.length else chars
  String.mk (stripped.map sepChar)

/-- An artifact-log invocation recorded against the tracking session:
the positional path plus the optional `name`, `type` and `cache` keyword
arguments of `Live.log_artifact`. -/
structure Artifact where
  path : String
  name : Option String
  type : Option String
  cache : Option Bool
deriving DecidableEq, Repr

/-- A hyperparameter value: a scalar (integer or string) or a nested
mapping, modelled as an association list in insertion order, mirroring a
Python `dict`. -/
inductive PValue where
  | int : Int → PValue
  | str : String → PValue
  | dict : List (String × PValue) → PValue

/-- Whether a hyperparameter value is a nested mapping (`isinstance(v, dict)`). -/
def PValue.isDict : PValue → Bool
  | .dict _ => true
  | _ => false

/-- Modelled from the spec: `_sanitize_params` is lightning's externally
supplied scalar sanitizer (an external collaborator, out of scope); the spec
says it stringifies non-primitive objects and passes primitives through.  Our
value model carries only primitive scalars, on which it is the identity. -/
def _sanitize_params (ps : List (String × PValue)) : List (String × PValue) := ps

mutual

/-- Embedding of the inner `sanitize_dict` of `DVCLiveLogger.log_hyperparams`
(lightning.py lines 76-85): partition the entries of one mapping level into
dict-valued ones (recursively sanitized) and non-dict-valued ones (passed
through `_sanitize_params`), and merge them back, dict-valued entries first —
mirroring the Python `{**dict_values, **non_dict_values}` on disjoint keys. -/
def sanitize_dict (params : List (String × PValue)) : List (String × PValue) :=
  dict_values params ++ _sanitize_params (params.filter fun kv => !kv.2.isDict)
termination_by sizeOf params + 1

/-- The `dict_values` accumulator of `sanitize_dict`: the dict-valued entries
in order, each recursively sanitized. -/
def dict_values : List (String × PValue) → List (String × PValue)
  | [] => []
  | (k, PValue.dict d) :: rest => (k, PValue.dict (sanitize_dict d)) :: dict_values rest
  | (_, _) :: rest => dict_values rest
termination_by l => sizeOf l

end

/-- The action of one `sanitize_dict` level on a single value: dict values are
recursively sanitized, scalars are untouched (our `_sanitize_params` model is
the identity on primitives). -/
def sanitizeValue : PValue → PValue
  | .dict d => .dict (sanitize_dict d)
  | v => v

mutual

/-- The leaf (key, scalar-value) pairs of a nested hyperparameter mapping,
in order, ignoring the path of nesting keys above each leaf. -/
def leaves : List (String × PValue) → List (String × PValue)
  | [] => []
  | (k, v) :: rest => leavesOf k v ++ leaves rest
termination_by l => sizeOf l

/-- The leaf pairs contributed by one entry `(k, v)`. -/
def leavesOf (k : String) : PValue → List (String × PValue)
  | .dict d => leaves d
  | v => [(k, v)]
termination_by v => sizeOf v

end

/-- Modelled from the spec: the `Live` tracking-session object
(`dvclive/live.py`) is not among the provided sources.  The spec's RunContext
(§3) carries the current step counter (unset until first assigned, mirroring
the Python `step` property that the adapter assigns `None` or an `int`), the
last step reported to the studio backend (`_latest_studio_step`, an integer),
the accumulated metric records (name, value, step-at-logging-time), the
accumulated hyperparameters, the artifact-log invocations, and whether the
run was ended. -/
structure RunContext where
  step : Option Int
  latest_studio_step : Int
  metricRecords : List (String × Rat × Option Int)
  params : List (String × PValue)
  artifacts : List Artifact
  ended : Bool

/-- Modelled from the spec: `Live.log_metric` appends a metric record for the
current step to the per-step accumulator (§4.2: forward the (normalized name,
scalar value) to RunContext at the current step). -/
def log_metric (e : RunContext) (name : String) (val : Rat) : RunContext :=
  { e with metricRecords := e.metricRecords ++ [(name, val, e.step)] }

/-- Modelled from the spec: `Live.next_step` advances the step counter by one
(§4.1 state machine: `AWAITING_METRICS(step=N)` → `AWAITING_METRICS(step=N+1)`,
initial step 0). -/
def next_step (e : RunContext) : RunContext :=
  { e with step := some (e.step.getD 0 + 1) }

/-- Modelled from the spec: `Live.log_artifact` records an artifact-log
invocation against the tracking session. -/
def log_artifact (e : RunContext) (path : String) (name type : Option String)
    (cache : Option Bool) : RunContext :=
  { e with artifacts := e.artifacts ++ [⟨path, name, type, cache⟩] }

/-- Modelled from the spec: `Live.log_params` accumulates hyperparameters
(§3: accumulated hyperparameters mapping). -/
def log_params (e : RunContext) (ps : List (String × PValue)) : RunContext :=
  { e with params := e.params ++ ps }

/-- Modelled from the spec: `Live.end` flushes and releases the run (§3:
destroyed/flushed at run finalization). -/
def live_end (e : RunContext) : RunContext :=
  { e with ended := true }

/-- The model-logging policy `log_model : Union[str, bool]` of the logger.
`ofBool true`/`ofBool false` model the Python booleans, `ofStr s` a string
such as `"all"`. -/
inductive LogModelPolicy where
  | ofBool : Bool → LogModelPolicy
  | ofStr : String → LogModelPolicy
deriving DecidableEq, Repr

/-- The Python identity test `self._log_model is True`. -/
def LogModelPolicy.pyIsTrue : LogModelPolicy → Bool
  | .ofBool true => true
  | _ => false

/-- The Python equality test `self._log_model == "all"`. -/
def LogModelPolicy.eqAll : LogModelPolicy → Bool
  | .ofStr s => s == "all"
  | _ => false

/-- The `ModelCheckpoint` callback state consumed by the adapter: the
checkpoint directory path, the best-model path, and the `save_top_k`
policy indicator. -/
structure ModelCheckpoint where
  dirpath : String
  best_model_path : String
  save_top_k : Int
deriving DecidableEq, Repr

/-- The mutable state of a `DVCLiveLogger` instance relevant to the claims:
the model-logging policy `_log_model`, the recorded checkpoint callback
`_checkpoint_callback`, and the tracking session `experiment` (modelled as
already created; lazy creation is irrelevant to the claims). -/
structure LoggerState where
  log_model : LogModelPolicy
  checkpoint_callback : Option ModelCheckpoint
  experiment : RunContext

/-- Embedding of `DVCLiveLogger.log_metrics` (lightning.py lines 111-126):
assign the caller-supplied step to the experiment's step property, forward
each metric under its standardized name, then, if the decider fires,
decrement `_latest_studio_step` when it equals the supplied step and call
`next_step`.  The ambient call stack is passed explicitly; tensor-to-scalar
conversion is an external concern (values arrive as scalars). -/
def log_metrics (s : LoggerState) (metrics : List (String × Rat))
    (step : Option Int) (stack : List String) : LoggerState :=
  let e0 : RunContext := { s.experiment with step := step }
  let e1 : RunContext := metrics.foldl
    (fun e p => log_metric e (standardize_metric_name p.1 MODULE_NAME) p.2) e0
  if _should_call_next_step stack then
    let e2 : RunContext :=
      if step = some e1.latest_studio_step then
        { e1 with latest_studio_step := e1.latest_studio_step - 1 }
      else e1
    { s with experiment := next_step e2 }
  else
    { s with experiment := e1 }

/-- Embedding of `DVCLiveLogger.log_hyperparams` (lightning.py lines 74-90):
the params run through the sanitization pipeline and are forwarded to
`Live.log_params`.  The external pipeline stages `_convert_params` and
`_sanitize_callable_params` (lightning collaborators, out of scope per the
spec) are the identity on our plain mappings of primitive scalars and nested
dicts. -/
def log_hyperparams (s : LoggerState) (params : List (String × PValue)) : LoggerState :=
  { s with experiment := log_params s.experiment (sanitize_dict params) }

/-- Embedding of `DVCLiveLogger.after_save_checkpoint` (lines 128-133):
store the callback, then log the checkpoint directory as an artifact when
`log_model == "all"` or (`log_model is True` and `save_top_k == -1`). -/
def after_save_checkpoint (s : LoggerState) (cb : ModelCheckpoint) : LoggerState :=
  let s1 : LoggerState := { s with checkpoint_callback := some cb }
  if s1.log_model.eqAll || (s1.log_model.pyIsTrue && cb.save_top_k == -1) then
    { s1 with experiment := log_artifact s1.experiment cb.dirpath none none none }
  else s1

/-- A Python runtime error surfaced by the embedding: an `AttributeError`
from accessing an attribute on `None`, tagged with the attribute name. -/
inductive PyError where
  | attributeError : String → PyError
deriving DecidableEq, Repr

/-- Attribute access `cb.<attr>` on an `Optional[ModelCheckpoint]`: raises
`AttributeError` when the callback is `None`. -/
def getAttr (cb : Option ModelCheckpoint) (attr : String)
    (f : ModelCheckpoint → String) : Except PyError String :=
  match cb with
  | none => .error (.attributeError attr)
  | some c => .ok (f c)

/-- Embedding of `DVCLiveLogger.finalize` (lines 135-147): when
`log_model is True`, log the checkpoint directory; when `log_model` is
`True` or `"all"`, log the best-model path with name `"best"`, type
`"model"`, `cache=False`; finally end the experiment.  Attribute accesses on
a missing checkpoint callback raise `AttributeError`. -/
def finalize (s : LoggerState) : Except PyError LoggerState :=
  (if s.log_model.pyIsTrue then
      (getAttr s.checkpoint_callback "dirpath" ModelCheckpoint.dirpath).map
        fun d => { s with experiment := log_artifact s.experiment d none none none }
    else .ok s).bind fun s1 =>
  (if s.log_model.pyIsTrue || s.log_model.eqAll then
      (getAttr s.checkpoint_callback "best_model_path" ModelCheckpoint.best_model_path).map
        fun b =>
          { s1 with experiment :=
              log_artifact s1.experiment b (some "best") (some "model") (some false) }
    else .ok s1).bind fun s2 =>
  .ok { s2 with experiment := live_end s2.experiment }

/-- The state `finalize` produces under policy `"all"` with a stored callback
`cb`: exactly one artifact-log invocation — the best-model path with name
`"best"`, type `"model"`, cache `False` — followed by ending the run. -/
def finalizeAllResult (s : LoggerState) (cb : ModelCheckpoint) : LoggerState :=
  let e := log_artifact s.experiment cb.best_model_path (some "best") (some "model")
    (some false)
  { s with experiment := live_end e }

/-- A concrete experiment state (step 2, last studio step 3, nothing logged)
used by witnesses and counterexamples. -/
def ctx0 : RunContext := ⟨some 2, 3, [], [], [], false⟩

/-- A concrete logger state over `ctx0` with model logging disabled. -/
def logger0 : LoggerState := ⟨.ofBool false, none, ctx0⟩

/-- The checkpoint callback populated in the concrete finalization states:
directory `"ckpts"`, best model `"ckpts/best.ckpt"`, `save_top_k = 2`. -/
def cbBest : ModelCheckpoint := ⟨"ckpts", "ckpts/best.ckpt", 2⟩

/-- A concrete logger with policy `"all"` and a populated checkpoint
callback. -/
def loggerAll : LoggerState := ⟨.ofStr "all", some cbBest, ctx0⟩

/-- The state `finalize loggerAll` actually produces: a single artifact-log
invocation, for the best-model path. -/
def loggerAllFinal : LoggerState :=
  ⟨.ofStr "all", some cbBest,
    ⟨some 2, 3, [], [],
      [⟨"ckpts/best.ckpt", some "best", some "model", some false⟩], true⟩⟩

/-- A concrete logger with policy `"all"` and no recorded checkpoint
callback. -/
def loggerNoCb : LoggerState := ⟨.ofStr "all", none, ctx0⟩

/-- The example hyperparameter mapping from the spec:
`{"a": {"b": 1}, "c": 2}`. -/
def exParams : List (String × PValue) :=
  [("a", PValue.dict [("b", PValue.int 1)]), ("c", PValue.int 2)]

/-- C1: the step-advance decider returns true iff the call-stack snapshot
contains at least one frame whose function name is exactly one of the three
allow-listed finalizer names; for every snapshot containing none of them it
returns false. -/
theorem C1_decider_iff (stack : List String) :
    _should_call_next_step stack = true ↔
      ∃ f ∈ stack,
        f = "update_train_step_metrics" ∨ f = "update_train_epoch_metrics" ∨
          f = "log_eval_end_metrics" := by
  unfold _should_call_next_step nextStepFrames
  rw [List.any_eq_true]
  constructor
  · rintro ⟨f, hf, hmem⟩
    refine ⟨f, hf, ?_⟩
    simpa using hmem
  · rintro ⟨f, hf, hcases⟩
    refine ⟨f, hf, ?_⟩
    simpa using hcases

/-- Separator replacement never produces the framework separator. -/
lemma sepChar_ne_dot (c : Char) : sepChar c ≠ '.' := by
  unfold sepChar
  split
  · decide
  · assumption

/-- After separator replacement, no framework separator remains. -/
lemma dot_not_mem_map_sepChar (l : List Char) : '.' ∉ l.map sepChar := by
  intro h
  obtain ⟨c, _, hc⟩ := List.mem_map.mp h
  exact sepChar_ne_dot c hc

/-- Separator replacement is the identity on separator-free strings. -/
lemma map_sepChar_of_dot_not_mem (l : List Char) (h : '.' ∉ l) :
    l.map sepChar = l := by
  induction l with
  | nil => rfl
  | cons c cs ih =>
    have hc : c ≠ '.' := fun hc => h (hc ▸ List.mem_cons_self c cs)
    have hcs : '.' ∉ cs := fun hm => h (List.mem_cons_of_mem c hm)
    simp [sepChar, hc, ih hcs]

/-- C7: metric name normalization as applied in `log_metrics` is idempotent:
normalizing an already-normalized name returns it unchanged. -/
theorem C7_standardize_metric_name_idempotent (name : String) :
    standardize_metric_name (standardize_metric_name name MODULE_NAME) MODULE_NAME =
      standardize_metric_name name MODULE_NAME := by
  unfold standardize_metric_name
  set pre : List Char := (MODULE_NAME ++ ".").toList with hpre
  have hdotpre : '.' ∈ pre := by rw [hpre]; decide
  set chars : List Char := name.toList
  set stripped : List Char :=
    if chars.take pre.length = pre then chars.drop pre.length else chars
  set out : List Char := stripped.map sepChar with hout
  have hdot : '.' ∉ out := hout ▸ dot_not_mem_map_sepChar stripped
  have htake : ¬ (String.mk out).toList.take pre.length = pre := by
    intro h
    have hmem : '.' ∈ (String.mk out).toList.take pre.length := by
      rw [h]; exact hdotpre
    exact hdot (List.take_subset pre.length (String.mk out).toList hmem)
  simp only [htake, if_false]
  exact congrArg String.mk (map_sepChar_of_dot_not_mem _ hdot)

/-- The metric-forwarding fold of `log_metrics` appends one record per
metric, all carrying the step that was current at entry, and touches no other
field of the experiment. -/
lemma foldl_log_metric (ms : List (String × Rat)) (e : RunContext) :
    ms.foldl (fun e p => log_metric e (standardize_metric_name p.1 MODULE_NAME) p.2) e =
      { e with metricRecords :=
          e.metricRecords ++
            ms.map fun p => (standardize_metric_name p.1 MODULE_NAME, p.2, e.step) } := by
  induction ms generalizing e with
  | nil => simp
  | cons hd tl ih =>
    simp only [List.foldl_cons, List.map_cons]
    rw [ih]
    simp [log_metric, List.append_assoc]

/-- Full characterization of one `log_metrics` call: the experiment's step
is assigned the caller-supplied value and advanced by one exactly when the
decider fires; `_latest_studio_step` is decremented exactly when the decider
fires and the supplied step equals it; one record per metric is appended,
each carrying the supplied step. -/
lemma log_metrics_eq (s : LoggerState) (ms : List (String × Rat))
    (step : Option Int) (stack : List String) :
    log_metrics s ms step stack =
      { s with experiment :=
        { s.experiment with
            step :=
              if _should_call_next_step stack then some (step.getD 0 + 1) else step
            latest_studio_step :=
              if _should_call_next_step stack ∧
                  step = some s.experiment.latest_studio_step then
                s.experiment.latest_studio_step - 1
              else s.experiment.latest_studio_step
            metricRecords :=
              s.experiment.metricRecords ++
                ms.map fun p => (standardize_metric_name p.1 MODULE_NAME, p.2, step) } } := by
  simp only [log_metrics]
  rw [foldl_log_metric]
  by_cases h : _should_call_next_step stack
  · by_cases h2 : step = some s.experiment.latest_studio_step
    · simp [h, h2, next_step]
    · simp [h, h2, next_step]
  · simp [h]

/-- C4 counterexample: with the backend's last-reported step (3) equal to the
logged step, a `log_metrics` call whose stack contains only the train-step
finalizer frame — not the evaluation-end frame — still decrements
`_latest_studio_step` from 3 to 2, contrary to the claim that the decrement
happens only on the evaluation-end path. -/
theorem C4_counterexample :
    (log_metrics logger0 [("m", 1)] (some 3)
        ["update_train_step_metrics"]).experiment.latest_studio_step = 2 ∧
      logger0.experiment.latest_studio_step = 3 ∧
      "log_eval_end_metrics" ∉ ["update_train_step_metrics"] :=
  ⟨rfl, rfl, by decide⟩

/-- C4 (amended): `_latest_studio_step` is decremented by one during
`log_metrics` exactly when the decider fires — via any of the three
allow-listed frames, not only the evaluation-end one — and the supplied step
equals the backend's last-reported step. -/
theorem C4_latest_studio_step_decrement (s : LoggerState) (ms : List (String × Rat))
    (step : Option Int) (stack : List String) :
    (log_metrics s ms step stack).experiment.latest_studio_step =
      if _should_call_next_step stack ∧
          step = some s.experiment.latest_studio_step then
        s.experiment.latest_studio_step - 1
      else s.experiment.latest_studio_step := by
  rw [log_metrics_eq]

/-- C5 counterexample: two `log_metrics` calls with caller-supplied steps 5
then 2 (no finalizer frame on the stack) move the experiment's step counter
from 5 down to 2, so the counter is not monotonic non-decreasing for
arbitrary caller-supplied step arguments. -/
theorem C5_counterexample :
    (log_metrics logger0 [] (some 5) []).experiment.step = some 5 ∧
      (log_metrics (log_metrics logger0 [] (some 5) []) []
        (some 2) []).experiment.step = some 2 ∧
      ¬ ((5 : Int) ≤ 2) :=
  ⟨rfl, rfl, by decide⟩

/-- C5 (amended): the step counter is non-decreasing across a `log_metrics`
call whenever the caller-supplied step argument is at least the current
counter value (the counter is assigned the argument unconditionally, so a
smaller argument decreases it). -/
theorem C5_step_monotone_of_le (s : LoggerState) (ms : List (String × Rat))
    (m n : Int) (stack : List String)
    (_hstep : s.experiment.step = some n) (hle : n ≤ m) :
    ∃ k : Int, (log_metrics s ms (some m) stack).experiment.step = some k ∧ n ≤ k := by
  rw [log_metrics_eq]
  by_cases h : _should_call_next_step stack
  · exact ⟨m + 1, by simp [h], by omega⟩
  · exact ⟨m, by simp [h], hle⟩

/-- C5 witness: a concrete call with current counter 2 and supplied step 3
keeps the counter at least 2. -/
theorem C5_witness :
    logger0.experiment.step = some 2 ∧ (2 : Int) ≤ 3 ∧
      ∃ k : Int, (log_metrics logger0 [] (some 3) []).experiment.step = some k ∧
        2 ≤ k :=
  ⟨rfl, by decide, C5_step_monotone_of_le logger0 [] 3 2 [] rfl (by decide)⟩

/-- C6: logging `{"train/loss": 0.5}` at step 3 from a stack containing a
frame named `update_train_epoch_metrics` leaves the experiment's step counter
at 4 immediately after the call. -/
theorem C6_epoch_end_advances_step (s : LoggerState) (stack : List String)
    (h : "update_train_epoch_metrics" ∈ stack) :
    (log_metrics s [("train/loss", 1/2)] (some 3) stack).experiment.step = some 4 := by
  have hd : _should_call_next_step stack = true := by
    unfold _should_call_next_step
    rw [List.any_eq_true]
    exact ⟨_, h, by decide⟩
  rw [log_metrics_eq]
  simp [hd]

/-- C6 witness: the concrete stack `[main, update_train_epoch_metrics,
log_metrics]` from the spec's example. -/
theorem C6_witness :
    "update_train_epoch_metrics" ∈
        ["main", "update_train_epoch_metrics", "log_metrics"] ∧
      (log_metrics logger0 [("train/loss", 1/2)] (some 3)
        ["main", "update_train_epoch_metrics", "log_metrics"]).experiment.step =
        some 4 :=
  ⟨by decide,
    C6_epoch_end_advances_step logger0
      ["main", "update_train_epoch_metrics", "log_metrics"] (by decide)⟩

/-- C10: on every `log_metrics` call the experiment's step property is
assigned the caller-supplied step argument (including `none`) before any
metric is forwarded — every forwarded record carries the supplied step — and
the counter is advanced past the assigned value only when the decider
fires. -/
theorem C10_step_assigned_before_forwarding (s : LoggerState)
    (ms : List (String × Rat)) (step : Option Int) (stack : List String) :
    (log_metrics s ms step stack).experiment.metricRecords =
        s.experiment.metricRecords ++
          ms.map (fun p => (standardize_metric_name p.1 MODULE_NAME, p.2, step)) ∧
      (log_metrics s ms step stack).experiment.step =
        (if _should_call_next_step stack then some (step.getD 0 + 1) else step) := by
  rw [log_metrics_eq]
  exact ⟨rfl, rfl⟩

/-- The Python test `log_model == "all"` holds exactly for the policy
`"all"`. -/
lemma eqAll_iff (p : LogModelPolicy) : p.eqAll = true ↔ p = .ofStr "all" := by
  cases p with
  | ofBool b => simp [LogModelPolicy.eqAll]
  | ofStr s => simp [LogModelPolicy.eqAll]

/-- The Python test `log_model is True` holds exactly for the policy
`True`. -/
lemma pyIsTrue_iff (p : LogModelPolicy) : p.pyIsTrue = true ↔ p = .ofBool true := by
  cases p with
  | ofBool b => cases b <;> simp [LogModelPolicy.pyIsTrue]
  | ofStr s => simp [LogModelPolicy.pyIsTrue]

/-- C9: every `after_save_checkpoint` call stores the given checkpoint
callback regardless of the model-logging policy, and logs the checkpoint
directory as an artifact exactly when the policy is `"all"`, or is `True`
with the callback's `save_top_k` equal to -1. -/
theorem C9_after_save_checkpoint_effects (s : LoggerState) (cb : ModelCheckpoint) :
    (after_save_checkpoint s cb).checkpoint_callback = some cb ∧
      (after_save_checkpoint s cb).experiment.artifacts =
        (if s.log_model = .ofStr "all" ∨
            (s.log_model = .ofBool true ∧ cb.save_top_k = -1) then
          s.experiment.artifacts ++ [⟨cb.dirpath, none, none, none⟩]
        else s.experiment.artifacts) := by
  have hcond :
      (s.log_model.eqAll || (s.log_model.pyIsTrue && cb.save_top_k == -1)) = true ↔
        (s.log_model = .ofStr "all" ∨
          (s.log_model = .ofBool true ∧ cb.save_top_k = -1)) := by
    simp [eqAll_iff, pyIsTrue_iff]
  unfold after_save_checkpoint
  by_cases h : s.log_model = .ofStr "all" ∨
      (s.log_model = .ofBool true ∧ cb.save_top_k = -1)
  · rw [if_pos (hcond.mpr h), if_pos h]
    exact ⟨rfl, rfl⟩
  · rw [if_neg (fun hb => h (hcond.mp hb)), if_neg h]
    exact ⟨rfl, rfl⟩

/-- C3 counterexample: `finalize` under policy `"all"` with a populated
checkpoint callback makes exactly one artifact-log invocation — the
best-model path with name `"best"` — and none with the checkpoint directory
path, contrary to the claimed two invocations (the `dirpath` branch requires
`log_model is True`, which the string `"all"` is not). -/
theorem C3_counterexample :
    finalize loggerAll = .ok loggerAllFinal ∧
      loggerAllFinal.experiment.artifacts.length = 1 ∧
      ∀ a ∈ loggerAllFinal.experiment.artifacts, a.path ≠ cbBest.dirpath :=
  ⟨rfl, rfl, by decide⟩

/-- C3 (amended): calling `finalize` with model-logging policy `"all"` and a
populated checkpoint callback makes exactly one artifact-log invocation on
the experiment: the best-model path with name `"best"` (type `"model"`,
cache `False`); the checkpoint directory path is logged by
`after_save_checkpoint` at each checkpoint save instead, not by
`finalize`. -/
theorem C3_finalize_all_logs_best_only (s : LoggerState) (cb : ModelCheckpoint)
    (hall : s.log_model = .ofStr "all") (hcb : s.checkpoint_callback = some cb) :
    finalize s = .ok (finalizeAllResult s cb) := by
  unfold finalize finalizeAllResult
  rw [hall, hcb]
  simp [LogModelPolicy.pyIsTrue, LogModelPolicy.eqAll, getAttr, Except.map,
    Except.bind, hall, hcb]

/-- C3 witness: the concrete logger `loggerAll`. -/
theorem C3_witness :
    loggerAll.log_model = .ofStr "all" ∧
      loggerAll.checkpoint_callback = some cbBest ∧
      finalize loggerAll = .ok (finalizeAllResult loggerAll cbBest) :=
  ⟨rfl, rfl, C3_finalize_all_logs_best_only loggerAll cbBest rfl rfl⟩

/-- C8: if `finalize` runs with model logging enabled (policy `True` or
`"all"`) and no checkpoint callback was ever recorded, the access to the
callback's path attribute fails with an attribute-not-found error that
propagates out of `finalize` unhandled. -/
theorem C8_finalize_missing_callback_error (s : LoggerState)
    (hcb : s.checkpoint_callback = none)
    (hpol : s.log_model = .ofBool true ∨ s.log_model = .ofStr "all") :
    finalize s = .error (.attributeError "dirpath") ∨
      finalize s = .error (.attributeError "best_model_path") := by
  unfold finalize
  rcases hpol with h | h
  · left
    rw [h, hcb]
    rfl
  · right
    rw [h, hcb]
    rfl

/-- C8 witness: the concrete logger `loggerNoCb`. -/
theorem C8_witness :
    loggerNoCb.checkpoint_callback = none ∧
      (loggerNoCb.log_model = .ofBool true ∨ loggerNoCb.log_model = .ofStr "all") ∧
      (finalize loggerNoCb = .error (.attributeError "dirpath") ∨
        finalize loggerNoCb = .error (.attributeError "best_model_path")) :=
  ⟨rfl, Or.inr rfl, C8_finalize_missing_callback_error loggerNoCb rfl (Or.inr rfl)⟩

@[simp] lemma isDict_dict (d : List (String × PValue)) :
    (PValue.dict d).isDict = true := rfl

@[simp] lemma isDict_int (n : Int) : (PValue.int n).isDict = false := rfl

@[simp] lemma isDict_str (t : String) : (PValue.str t).isDict = false := rfl

@[simp] lemma sanitizeValue_dict (d : List (String × PValue)) :
    sanitizeValue (PValue.dict d) = PValue.dict (sanitize_dict d) := rfl

@[simp] lemma sanitizeValue_int (n : Int) :
    sanitizeValue (PValue.int n) = PValue.int n := rfl

@[simp] lemma sanitizeValue_str (t : String) :
    sanitizeValue (PValue.str t) = PValue.str t := rfl

/-- The defining equation of `sanitize_dict`, with the identity
`_sanitize_params` applied. -/
lemma sanitize_dict_eq (ps : List (String × PValue)) :
    sanitize_dict ps = dict_values ps ++ (ps.filter fun kv => !kv.2.isDict) := by
  simp [sanitize_dict, _sanitize_params]

/-- `dict_values` keeps exactly the dict-valued entries, in order, with the
recursive sanitization applied to each. -/
lemma dict_values_eq (ps : List (String × PValue)) :
    dict_values ps =
      (ps.filter fun kv => kv.2.isDict).map fun kv => (kv.1, sanitizeValue kv.2) := by
  induction ps with
  | nil => simp [dict_values]
  | cons kv rest ih =>
    obtain ⟨k, v⟩ := kv
    cases v with
    | dict d => simp [dict_values, ih]
    | int n => simp [dict_values, ih]
    | str t => simp [dict_values, ih]

/-- One `sanitize_dict` level leaves non-dict entries untouched. -/
lemma map_sanitizeValue_filter_non_dict (ps : List (String × PValue)) :
    ((ps.filter fun kv => !kv.2.isDict).map fun kv => (kv.1, sanitizeValue kv.2)) =
      ps.filter fun kv => !kv.2.isDict := by
  induction ps with
  | nil => simp
  | cons kv rest ih =>
    obtain ⟨k, v⟩ := kv
    cases v <;> simp [ih]

/-- The output of one `sanitize_dict` level is a permutation of the input
entries with `sanitizeValue` applied to each value. -/
lemma sanitize_dict_perm (ps : List (String × PValue)) :
    (sanitize_dict ps).Perm (ps.map fun kv => (kv.1, sanitizeValue kv.2)) := by
  rw [sanitize_dict_eq, dict_values_eq, ← map_sanitizeValue_filter_non_dict ps,
    ← List.map_append]
  exact (List.filter_append_perm _ ps).map _

/-- `leaves` as a flattened per-entry map. -/
lemma leaves_flatten (ps : List (String × PValue)) :
    leaves ps = (ps.map fun kv => leavesOf kv.1 kv.2).flatten := by
  induction ps with
  | nil => simp [leaves]
  | cons kv rest ih =>
    obtain ⟨k, v⟩ := kv
    simp [leaves, ih]

/-- Permuting the entries of a mapping permutes its leaves. -/
lemma leaves_perm_of_perm {l₁ l₂ : List (String × PValue)} (h : l₁.Perm l₂) :
    (leaves l₁).Perm (leaves l₂) := by
  rw [leaves_flatten, leaves_flatten]
  exact (h.map _).flatten

/-- Applying `sanitizeValue` entrywise permutes no leaves, provided each
nested dict's sanitization permutes none (the recursive hypothesis). -/
lemma leaves_map_sanitizeValue (qs : List (String × PValue))
    (H : ∀ k d, (k, PValue.dict d) ∈ qs →
      (leaves (sanitize_dict d)).Perm (leaves d)) :
    (leaves (qs.map fun kv => (kv.1, sanitizeValue kv.2))).Perm (leaves qs) := by
  induction qs with
  | nil => simp [leaves]
  | cons kv rest ih =>
    obtain ⟨k, v⟩ := kv
    have hrest := ih fun k d hm => H k d (List.mem_cons_of_mem _ hm)
    cases v with
    | dict d =>
      have hthis := H k d (List.mem_cons_self _ _)
      simp only [List.map_cons, leaves, sanitizeValue, leavesOf]
      exact hthis.append hrest
    | int n =>
      simp only [List.map_cons, leaves, sanitizeValue, leavesOf]
      exact (List.Perm.refl _).append hrest
    | str t =>
      simp only [List.map_cons, leaves, sanitizeValue, leavesOf]
      exact (List.Perm.refl _).append hrest

/-- `sanitize_dict` loses no leaf: the leaf (key, value) pairs of its output
are a permutation of those of its input, at every nesting depth. -/
lemma leaves_sanitize_dict (ps : List (String × PValue)) :
    (leaves (sanitize_dict ps)).Perm (leaves ps) := by
  have H : ∀ k d, (k, PValue.dict d) ∈ ps →
      (leaves (sanitize_dict d)).Perm (leaves d) := by
    intro k d hm
    have hsz : sizeOf d < sizeOf ps := by
      have h1 := List.sizeOf_lt_of_mem hm
      simp only [Prod.mk.sizeOf_spec, PValue.dict.sizeOf_spec] at h1
      omega
    exact leaves_sanitize_dict d
  exact (leaves_perm_of_perm (sanitize_dict_perm ps)).trans
    (leaves_map_sanitizeValue ps H)
termination_by sizeOf ps
decreasing_by exact hsz

/-- C2 counterexample: the sanitization pipeline of `log_hyperparams` does
not flatten: on `{"a": {"b": 1}, "c": 2}` it returns the nested mapping
unchanged, which has no top-level key `"b"`, whereas the claimed output
`{"b": 1, "c": 2}` maps `"b"` to 1. -/
theorem C2_counterexample :
    sanitize_dict exParams = exParams ∧
      List.lookup "b" (sanitize_dict exParams) = none ∧
      List.lookup "b" [("b", PValue.int 1), ("c", PValue.int 2)] =
        some (PValue.int 1) := by
  have h1 : sanitize_dict exParams = exParams := by
    simp [exParams, sanitize_dict, dict_values, _sanitize_params, PValue.isDict]
  refine ⟨h1, ?_, rfl⟩
  rw [h1]
  rfl

/-- C2 (amended): for the input `{"a": {"b": 1}, "c": 2}` the sanitization
pipeline of `log_hyperparams` produces the nested mapping
`{"a": {"b": 1}, "c": 2}` unchanged — nesting is preserved, not flattened —
and forwards it to the experiment; in every case the result contains every
leaf key of the input with its value: the leaves of the output are a
permutation of the leaves of the input (no information loss). -/
theorem C2_sanitize_dict_no_leaf_loss :
    sanitize_dict exParams = exParams ∧
      (∀ s : LoggerState, (log_hyperparams s exParams).experiment.params =
        s.experiment.params ++ exParams) ∧
      ∀ ps : List (String × PValue),
        (leaves (sanitize_dict ps)).Perm (leaves ps) := by
  have h1 : sanitize_dict exParams = exParams := by
    simp [exParams, sanitize_dict, dict_values, _sanitize_params, PValue.isDict]
  refine ⟨h1, ?_, leaves_sanitize_dict⟩
  intro s
  simp [log_hyperparams, log_params, h1]

end DvcliveLightning
